import Mathlib

/-!
Shallow embedding of the slot-filling Telegram bot in src/bot.py.

The per-user dictionary context.user_data is modelled by the structure
Draft (keys ID, Name, Timestamp, Contact_Info, Context, Follow-Up Status;
the empty string stands for an absent or falsy value, matching Python
truthiness on the string values the bot stores).  The four handlers
start, context_state, missing_info_state and cancel are modelled as pure
functions from the current draft and the inbound data to a TurnOut value
recording the next conversation state, the updated draft, the reply sent
to the user, and the row (if any) passed to sheet.append_row together
with whether that append succeeded.  The external extractor call is an
oracle input: an Option ExtractionResult, where none models the except
branch of extract_fields_from_context (which returns an empty dict), and
the per-field Option models dict key presence.  The sink is an oracle
Bool per turn.  The ConversationHandler dispatch of main() is the step
function; run folds it over a list of inputs.
-/

namespace Daedalus

/-- The per-user data dictionary context.user_data, restricted to the six
keys the bot reads and writes.  Empty string models an absent key. -/
structure Draft where
  ID : String
  Name : String
  Timestamp : String
  Contact_Info : String
  Context : String
  FollowUpStatus : String
deriving Repr, DecidableEq

/-- A draft with every field unset, as for a user the bot has never seen. -/
def emptyDraft : Draft := ⟨"", "", "", "", "", ""⟩

/-- The dictionary returned by a successful extract_fields_from_context
call: each Option field models presence of the corresponding key in the
tool-use block input (a present key may carry any string, empty included). -/
structure ExtractionResult where
  name : Option String
  timestamp : Option String
  contact_info : Option String
  context : Option String
deriving Repr, DecidableEq

/-- The empty dictionary \x7b\x7d. -/
def emptyExtraction : ExtractionResult := ⟨none, none, none, none⟩

/-- extract_fields_from_context returns the tool input on success and the
empty dict on any exception or unexpected response shape (bot.py:116-132). -/
def extractResult (r : Option ExtractionResult) : ExtractionResult :=
  r.getD emptyExtraction

/-- Whether needle is an initial segment of hay (helper for substring). -/
def strHeadMatch : List Char → List Char → Bool
  | [], _ => true
  | _ :: _, [] => false
  | a :: as, b :: bs => a == b && strHeadMatch as bs

/-- Whether needle occurs contiguously inside hay. -/
def occursIn (needle : List Char) : List Char → Bool
  | [] => strHeadMatch needle []
  | b :: bs => strHeadMatch needle (b :: bs) || occursIn needle bs

/-- The Python substring test `needle in hay` on strings. -/
def strIn (needle hay : String) : Bool := occursIn needle.data hay.data

/-- Dictionary read context.user_data.get(k) on the field keys, with
Python truthiness: an unknown key reads as the empty (falsy) string. -/
def getField (d : Draft) (k : String) : String :=
  if k = "Name" then d.Name
  else if k = "Timestamp" then d.Timestamp
  else if k = "Contact_Info" then d.Contact_Info
  else if k = "Context" then d.Context
  else ""

/-- Dictionary write context.user_data[k] = v for the keys the
missing-info loop can write (bot.py:190-192). -/
def setField (d : Draft) (k v : String) : Draft :=
  if k = "Name" then { d with Name := v }
  else if k = "Timestamp" then { d with Timestamp := v }
  else if k = "Contact_Info" then { d with Contact_Info := v }
  else d

/-- The keys tested by the missing-field checks, in program order
(bot.py:149-154 and 185-186). -/
def requiredKeys : List String := ["Name", "Timestamp", "Contact_Info"]

/-- The draft fields the spec treats as the record proper. -/
def fieldKeys : List String := ["Name", "Timestamp", "Contact_Info", "Context"]

/-- The list of required keys whose draft value is currently falsy,
exactly as both handlers recompute it (bot.py:148-154, 185-186, 195-196). -/
def missingFields (d : Draft) : List String :=
  requiredKeys.filter (fun k => decide (getField d k = ""))

/-- Conversation states CONTEXT, MISSING_INFO, END = range(3) (bot.py:49). -/
inductive ConvState where
  | CONTEXT
  | MISSING_INFO
  | END
deriving Repr, DecidableEq

/-- The observable outcome of one handler invocation: the returned
conversation state, the mutated user_data, the reply_text sent, the row
passed to sheet.append_row (none when no append was attempted), and
whether that append raised. -/
structure TurnOut where
  state : ConvState
  draft : Draft
  reply : Option String
  appendAttempt : Option (List String)
  appendOk : Bool
deriving Repr, DecidableEq

/-- The ordered row handed to sheet.append_row (bot.py:164-171, 205-212). -/
def rowOf (d : Draft) : List String :=
  [d.ID, d.Name, d.Context, d.Timestamp, d.Contact_Info, d.FollowUpStatus]

def successMsg : String := "Thank you! Your information has been saved."

def sinkErrorMsg : String := "There was an error saving your information."

/-- The field merge of context_state (bot.py:141-146): every one of the
five data keys is assigned, from the extraction dict where present, with
the defaults of the .get calls otherwise. -/
def contextMerge (d : Draft) (msg : String) (ed : ExtractionResult) : Draft :=
  { d with
    Context := ed.context.getD msg
    Name := ed.name.getD ""
    Timestamp := ed.timestamp.getD ""
    Contact_Info := ed.contact_info.getD ""
    FollowUpStatus := "Pending" }

/-- Handler context_state (bot.py:134-176): merge the extraction result,
recompute the missing required keys, then either prompt for them joined
with " and ", or append the row and finish. -/
def context_state (d : Draft) (msg : String) (er : Option ExtractionResult)
    (sinkOk : Bool) : TurnOut :=
  let d2 := contextMerge d msg (extractResult er)
  match missingFields d2 with
  | [] =>
      { state := ConvState.END, draft := d2,
        reply := some (if sinkOk then successMsg else sinkErrorMsg),
        appendAttempt := some (rowOf d2), appendOk := sinkOk }
  | f :: fs =>
      { state := ConvState.MISSING_INFO, draft := d2,
        reply := some ("I couldn\x27t find the "
          ++ String.intercalate " and " (f :: fs)
          ++ " in your message. Could you please provide it?"),
        appendAttempt := none, appendOk := false }

/-- The fill loop of missing_info_state (bot.py:184-192): the missing
list is computed once from the incoming draft, then each field whose
literal key string occurs in the reply is assigned the entire reply. -/
def missingMerge (d : Draft) (reply : String) : Draft :=
  (missingFields d).foldl
    (fun acc field => if strIn field reply then setField acc field reply else acc) d

/-- Handler missing_info_state (bot.py:178-218): run the fill loop,
recompute the still-missing keys, then either prompt for the first one
or append the row and finish.  Note there is no extraction argument:
the handler never calls the extractor. -/
def missing_info_state (d : Draft) (reply : String) (sinkOk : Bool) : TurnOut :=
  let d2 := missingMerge d reply
  match missingFields d2 with
  | f :: _ =>
      { state := ConvState.MISSING_INFO, draft := d2,
        reply := some ("Please provide the " ++ f),
        appendAttempt := none, appendOk := false }
  | [] =>
      { state := ConvState.END, draft := d2,
        reply := some (if sinkOk then successMsg else sinkErrorMsg),
        appendAttempt := some (rowOf d2), appendOk := sinkOk }

/-- Handler cancel (bot.py:220-225): reply and end; user_data untouched. -/
def cancel (d : Draft) : TurnOut :=
  { state := ConvState.END, draft := d, reply := some "Conversation cancelled.",
    appendAttempt := none, appendOk := false }

/-- Handler start (bot.py:51-57): store a fresh ID, greet, enter CONTEXT.
The triggering message text is not used. -/
def start (d : Draft) (freshId : String) : TurnOut :=
  { state := ConvState.CONTEXT, draft := { d with ID := freshId },
    reply := some "Hi! Please tell me about the person you met.",
    appendAttempt := none, appendOk := false }

/-- One inbound update for the session: a text message (with the oracle
outcome of the extractor call, the oracle outcome of the sink append and
the fresh ID that start would mint), or the /cancel command. -/
inductive Input where
  | message (text : String) (er : Option ExtractionResult) (sinkOk : Bool)
      (freshId : String)
  | cancelCmd
deriving Repr, DecidableEq

/-- The ConversationHandler dispatch of main() (bot.py:233-240): text
messages go to the handler of the current state, or to the entry point
start when no conversation is active; /cancel is a fallback of an active
conversation and is ignored otherwise. -/
def step (s : ConvState) (d : Draft) (i : Input) : TurnOut :=
  match i with
  | Input.cancelCmd =>
      match s with
      | ConvState.END =>
          { state := ConvState.END, draft := d, reply := none,
            appendAttempt := none, appendOk := false }
      | _ => cancel d
  | Input.message text er ok freshId =>
      match s with
      | ConvState.CONTEXT => context_state d text er ok
      | ConvState.MISSING_INFO => missing_info_state d text ok
      | ConvState.END => start d freshId

/-- Process a list of inbound updates, returning the final conversation
state and draft. -/
def run (s : ConvState) (d : Draft) : List Input → ConvState × Draft
  | [] => (s, d)
  | i :: rest => run (step s d i).state (step s d i).draft rest

/-! ### Evaluation lemmas for the missing-field computation -/

lemma missingFields_eval (d : Draft) :
    missingFields d =
      (if d.Name = "" then ["Name"] else [])
        ++ (if d.Timestamp = "" then ["Timestamp"] else [])
        ++ (if d.Contact_Info = "" then ["Contact_Info"] else []) := by
  by_cases h1 : d.Name = "" <;> by_cases h2 : d.Timestamp = "" <;>
    by_cases h3 : d.Contact_Info = "" <;>
    simp [missingFields, requiredKeys, getField, List.filter, h1, h2, h3]

lemma setField_Name (d : Draft) (v : String) : setField d "Name" v = { d with Name := v } := by
  simp [setField]

lemma setField_Timestamp (d : Draft) (v : String) :
    setField d "Timestamp" v = { d with Timestamp := v } := by
  simp [setField]

lemma setField_Contact (d : Draft) (v : String) :
    setField d "Contact_Info" v = { d with Contact_Info := v } := by
  simp [setField]

lemma missingMerge_Name (d : Draft) (r : String) :
    (missingMerge d r).Name =
      if d.Name = "" then (if strIn "Name" r then r else "") else d.Name := by
  by_cases h1 : d.Name = "" <;> by_cases h2 : d.Timestamp = "" <;>
    by_cases h3 : d.Contact_Info = "" <;>
    by_cases hs : strIn "Name" r = true <;>
    by_cases hs2 : strIn "Timestamp" r = true <;>
    by_cases hs3 : strIn "Contact_Info" r = true <;>
    simp [missingMerge, missingFields_eval, h1, h2, h3, hs, hs2, hs3,
      setField_Name, setField_Timestamp, setField_Contact]

lemma missingMerge_Timestamp (d : Draft) (r : String) :
    (missingMerge d r).Timestamp =
      if d.Timestamp = "" then (if strIn "Timestamp" r then r else "") else d.Timestamp := by
  by_cases h1 : d.Name = "" <;> by_cases h2 : d.Timestamp = "" <;>
    by_cases h3 : d.Contact_Info = "" <;>
    by_cases hs : strIn "Name" r = true <;>
    by_cases hs2 : strIn "Timestamp" r = true <;>
    by_cases hs3 : strIn "Contact_Info" r = true <;>
    simp [missingMerge, missingFields_eval, h1, h2, h3, hs, hs2, hs3,
      setField_Name, setField_Timestamp, setField_Contact]

lemma missingMerge_Contact (d : Draft) (r : String) :
    (missingMerge d r).Contact_Info =
      if d.Contact_Info = "" then (if strIn "Contact_Info" r then r else "")
      else d.Contact_Info := by
  by_cases h1 : d.Name = "" <;> by_cases h2 : d.Timestamp = "" <;>
    by_cases h3 : d.Contact_Info = "" <;>
    by_cases hs : strIn "Name" r = true <;>
    by_cases hs2 : strIn "Timestamp" r = true <;>
    by_cases hs3 : strIn "Contact_Info" r = true <;>
    simp [missingMerge, missingFields_eval, h1, h2, h3, hs, hs2, hs3,
      setField_Name, setField_Timestamp, setField_Contact]

lemma missingMerge_Context (d : Draft) (r : String) :
    (missingMerge d r).Context = d.Context := by
  by_cases h1 : d.Name = "" <;> by_cases h2 : d.Timestamp = "" <;>
    by_cases h3 : d.Contact_Info = "" <;>
    by_cases hs : strIn "Name" r = true <;>
    by_cases hs2 : strIn "Timestamp" r = true <;>
    by_cases hs3 : strIn "Contact_Info" r = true <;>
    simp [missingMerge, missingFields_eval, h1, h2, h3, hs, hs2, hs3,
      setField_Name, setField_Timestamp, setField_Contact]

lemma missingMerge_ID (d : Draft) (r : String) : (missingMerge d r).ID = d.ID := by
  by_cases h1 : d.Name = "" <;> by_cases h2 : d.Timestamp = "" <;>
    by_cases h3 : d.Contact_Info = "" <;>
    by_cases hs : strIn "Name" r = true <;>
    by_cases hs2 : strIn "Timestamp" r = true <;>
    by_cases hs3 : strIn "Contact_Info" r = true <;>
    simp [missingMerge, missingFields_eval, h1, h2, h3, hs, hs2, hs3,
      setField_Name, setField_Timestamp, setField_Contact]

lemma missingMerge_FollowUp (d : Draft) (r : String) :
    (missingMerge d r).FollowUpStatus = d.FollowUpStatus := by
  by_cases h1 : d.Name = "" <;> by_cases h2 : d.Timestamp = "" <;>
    by_cases h3 : d.Contact_Info = "" <;>
    by_cases hs : strIn "Name" r = true <;>
    by_cases hs2 : strIn "Timestamp" r = true <;>
    by_cases hs3 : strIn "Contact_Info" r = true <;>
    simp [missingMerge, missingFields_eval, h1, h2, h3, hs, hs2, hs3,
      setField_Name, setField_Timestamp, setField_Contact]

lemma missingFields_nil_iff (d : Draft) :
    missingFields d = [] ↔ d.Name ≠ "" ∧ d.Timestamp ≠ "" ∧ d.Contact_Info ≠ "" := by
  rw [missingFields_eval]
  by_cases h1 : d.Name = "" <;> by_cases h2 : d.Timestamp = "" <;>
    by_cases h3 : d.Contact_Info = "" <;> simp [h1, h2, h3]

lemma getField_Name (d : Draft) : getField d "Name" = d.Name := by simp [getField]

lemma getField_Timestamp (d : Draft) : getField d "Timestamp" = d.Timestamp := by
  simp [getField]

lemma getField_Contact (d : Draft) : getField d "Contact_Info" = d.Contact_Info := by
  simp [getField]

lemma getField_Context (d : Draft) : getField d "Context" = d.Context := by
  simp [getField]

/-! ### Shape lemmas for the two message handlers -/

lemma missing_info_state_draft (d : Draft) (t : String) (ok : Bool) :
    (missing_info_state d t ok).draft = missingMerge d t := by
  unfold missing_info_state
  cases h : missingFields (missingMerge d t) <;> simp [h]

lemma missing_info_state_cases (d : Draft) (t : String) (ok : Bool) :
    (missing_info_state d t ok).state = ConvState.MISSING_INFO ∨
      (missing_info_state d t ok).state = ConvState.END := by
  unfold missing_info_state
  cases h : missingFields (missingMerge d t) <;> simp [h]

lemma context_state_draft (d : Draft) (t : String) (er : Option ExtractionResult) (ok : Bool) :
    (context_state d t er ok).draft = contextMerge d t (extractResult er) := by
  unfold context_state
  cases h : missingFields (contextMerge d t (extractResult er)) <;> simp [h]

lemma context_state_cases (d : Draft) (t : String) (er : Option ExtractionResult) (ok : Bool) :
    (context_state d t er ok).state = ConvState.MISSING_INFO ∨
      (context_state d t er ok).state = ConvState.END := by
  unfold context_state
  cases h : missingFields (contextMerge d t (extractResult er)) <;> simp [h]

/-! ### Monotonicity of in-conversation turns -/

lemma missingMerge_mono (d : Draft) (r f : String) (hf : f ∈ fieldKeys)
    (h : getField d f ≠ "") : getField (missingMerge d r) f = getField d f := by
  simp only [fieldKeys, List.mem_cons, List.not_mem_nil, or_false] at hf
  rcases hf with rfl | rfl | rfl | rfl
  · rw [getField_Name] at h
    rw [getField_Name, getField_Name, missingMerge_Name, if_neg h]
  · rw [getField_Timestamp] at h
    rw [getField_Timestamp, getField_Timestamp, missingMerge_Timestamp, if_neg h]
  · rw [getField_Contact] at h
    rw [getField_Contact, getField_Contact, missingMerge_Contact, if_neg h]
  · rw [getField_Context, getField_Context, missingMerge_Context]

lemma step_missing_mono (d : Draft) (i : Input) (f : String) (hf : f ∈ fieldKeys)
    (h : getField d f ≠ "") :
    getField (step ConvState.MISSING_INFO d i).draft f = getField d f := by
  cases i with
  | cancelCmd => simp [step, cancel]
  | message t er ok nid =>
      simp only [step]
      rw [missing_info_state_draft]
      exact missingMerge_mono d t f hf h

lemma run_missing_stays (is : List Input) : ∀ d : Draft,
    (∀ k, k ≤ is.length → (run ConvState.MISSING_INFO d (is.take k)).1 ≠ ConvState.END) →
    (run ConvState.MISSING_INFO d is).1 = ConvState.MISSING_INFO := by
  induction is with
  | nil => intro d _; rfl
  | cons i rest ih =>
      intro d h
      have h1 : (step ConvState.MISSING_INFO d i).state ≠ ConvState.END := by
        have := h 1 (by simp only [List.length_cons]; omega)
        simpa [run] using this
      cases i with
      | cancelCmd => exact (h1 (by simp [step, cancel])).elim
      | message t er ok nid =>
          have hst : (missing_info_state d t ok).state = ConvState.MISSING_INFO := by
            rcases missing_info_state_cases d t ok with hs | hs
            · exact hs
            · exact absurd hs (by simpa [step] using h1)
          have hdr := missing_info_state_draft d t ok
          have hrun : run ConvState.MISSING_INFO d (Input.message t er ok nid :: rest)
              = run ConvState.MISSING_INFO (missingMerge d t) rest := by
            show run (step ConvState.MISSING_INFO d (Input.message t er ok nid)).state
                (step ConvState.MISSING_INFO d (Input.message t er ok nid)).draft rest = _
            simp only [step, hst, hdr]
          rw [hrun]
          apply ih
          intro k hk
          have hk' := h (k + 1) (by simp only [List.length_cons]; omega)
          rw [List.take_succ_cons] at hk'
          have heq : run ConvState.MISSING_INFO d (Input.message t er ok nid :: rest.take k)
              = run ConvState.MISSING_INFO (missingMerge d t) (rest.take k) := by
            show run (step ConvState.MISSING_INFO d (Input.message t er ok nid)).state
                (step ConvState.MISSING_INFO d (Input.message t er ok nid)).draft
                (rest.take k) = _
            simp only [step, hst, hdr]
          rwa [heq] at hk'

/-! ### Branch lemmas for the two handlers -/

lemma context_state_complete (d : Draft) (t : String) (er : Option ExtractionResult)
    (ok : Bool) (h : missingFields (contextMerge d t (extractResult er)) = []) :
    context_state d t er ok =
      { state := ConvState.END, draft := contextMerge d t (extractResult er),
        reply := some (if ok then successMsg else sinkErrorMsg),
        appendAttempt := some (rowOf (contextMerge d t (extractResult er))),
        appendOk := ok } := by
  simp only [context_state]
  rw [h]

lemma context_state_incomplete (d : Draft) (t : String) (er : Option ExtractionResult)
    (ok : Bool) (f : String) (fs : List String)
    (h : missingFields (contextMerge d t (extractResult er)) = f :: fs) :
    context_state d t er ok =
      { state := ConvState.MISSING_INFO, draft := contextMerge d t (extractResult er),
        reply := some ("I couldn\x27t find the " ++ String.intercalate " and " (f :: fs)
          ++ " in your message. Could you please provide it?"),
        appendAttempt := none, appendOk := false } := by
  simp only [context_state]
  rw [h]

lemma missing_info_state_complete (d : Draft) (t : String) (ok : Bool)
    (h : missingFields (missingMerge d t) = []) :
    missing_info_state d t ok =
      { state := ConvState.END, draft := missingMerge d t,
        reply := some (if ok then successMsg else sinkErrorMsg),
        appendAttempt := some (rowOf (missingMerge d t)), appendOk := ok } := by
  simp only [missing_info_state]
  rw [h]

lemma missing_info_state_incomplete (d : Draft) (t : String) (ok : Bool)
    (f : String) (fs : List String) (h : missingFields (missingMerge d t) = f :: fs) :
    missing_info_state d t ok =
      { state := ConvState.MISSING_INFO, draft := missingMerge d t,
        reply := some ("Please provide the " ++ f),
        appendAttempt := none, appendOk := false } := by
  simp only [missing_info_state]
  rw [h]

/-! ### Claim theorems -/

/-- C1.  Monotonic merge: along any sequence of turns of a single
conversation (started with a fresh draft and not yet terminated), once a
draft field among Name, Timestamp, Contact_Info, Context holds a
non-empty value, the next turn — whatever its message text, extraction
outcome (including a failed extraction) or a cancel — leaves that field
unchanged; merging never resets a previously-set field. -/
theorem merge_is_monotonic (d0 : Draft)
    (h0 : d0.Name = "" ∧ d0.Timestamp = "" ∧ d0.Contact_Info = "" ∧ d0.Context = "")
    (is : List Input) (i : Input) (f : String) (hf : f ∈ fieldKeys)
    (hend : ∀ k, k ≤ is.length → (run ConvState.CONTEXT d0 (is.take k)).1 ≠ ConvState.END)
    (hne : getField (run ConvState.CONTEXT d0 is).2 f ≠ "") :
    getField (step (run ConvState.CONTEXT d0 is).1 (run ConvState.CONTEXT d0 is).2 i).draft f
      = getField (run ConvState.CONTEXT d0 is).2 f := by
  cases is with
  | nil =>
      exfalso
      apply hne
      obtain ⟨e1, e2, e3, e4⟩ := h0
      simp only [fieldKeys, List.mem_cons, List.not_mem_nil, or_false] at hf
      rcases hf with rfl | rfl | rfl | rfl <;>
        simp [run, getField, e1, e2, e3, e4]
  | cons i0 rest =>
      have h1 : (step ConvState.CONTEXT d0 i0).state ≠ ConvState.END := by
        have := hend 1 (by simp only [List.length_cons]; omega)
        simpa [run] using this
      cases i0 with
      | cancelCmd => exact (h1 (by simp [step, cancel])).elim
      | message t er ok nid =>
          have hst : (context_state d0 t er ok).state = ConvState.MISSING_INFO := by
            rcases context_state_cases d0 t er ok with hs | hs
            · exact hs
            · exact absurd hs (by simpa [step] using h1)
          have hrun : run ConvState.CONTEXT d0 (Input.message t er ok nid :: rest)
              = run ConvState.MISSING_INFO (context_state d0 t er ok).draft rest := by
            show run (step ConvState.CONTEXT d0 (Input.message t er ok nid)).state
                (step ConvState.CONTEXT d0 (Input.message t er ok nid)).draft rest = _
            simp only [step, hst]
          have hstays : (run ConvState.CONTEXT d0 (Input.message t er ok nid :: rest)).1
              = ConvState.MISSING_INFO := by
            rw [hrun]
            apply run_missing_stays
            intro k hk
            have hk' := hend (k + 1) (by simp only [List.length_cons]; omega)
            rw [List.take_succ_cons] at hk'
            have heq : run ConvState.CONTEXT d0 (Input.message t er ok nid :: rest.take k)
                = run ConvState.MISSING_INFO (context_state d0 t er ok).draft (rest.take k) := by
              show run (step ConvState.CONTEXT d0 (Input.message t er ok nid)).state
                  (step ConvState.CONTEXT d0 (Input.message t er ok nid)).draft
                  (rest.take k) = _
              simp only [step, hst]
            rwa [heq] at hk'
          rw [hstays]
          exact step_missing_mono _ i f hf hne

/-- C1 witness: after a first turn that extracted the name only, a
further turn that extracts nothing leaves Name = "Alice" unchanged. -/
theorem merge_is_monotonic_witness :
    getField
      (step
        (run ConvState.CONTEXT emptyDraft
          [Input.message "met Alice" (some ⟨some "Alice", none, none, some "ctx"⟩) true "id1"]).1
        (run ConvState.CONTEXT emptyDraft
          [Input.message "met Alice" (some ⟨some "Alice", none, none, some "ctx"⟩) true "id1"]).2
        (Input.message "hello" none true "id2")).draft "Name"
      = getField
        (run ConvState.CONTEXT emptyDraft
          [Input.message "met Alice" (some ⟨some "Alice", none, none, some "ctx"⟩) true "id1"]).2
        "Name" :=
  merge_is_monotonic emptyDraft (by decide)
    [Input.message "met Alice" (some ⟨some "Alice", none, none, some "ctx"⟩) true "id1"]
    (Input.message "hello" none true "id2") "Name" (by decide) (by decide) (by decide)

/-- C2 counterexample: a turn whose extraction result carries an empty
context value completes — the record is handed to the sink and the
conversation ends — although the required field Context is empty in the
draft, so completion does not require all four fields to be non-empty. -/
theorem completes_with_empty_context :
    (step ConvState.CONTEXT emptyDraft
        (Input.message "hi" (some ⟨some "Alice", some "2024-11-30", some "a@x.com", some ""⟩)
          true "n")).state = ConvState.END ∧
    (step ConvState.CONTEXT emptyDraft
        (Input.message "hi" (some ⟨some "Alice", some "2024-11-30", some "a@x.com", some ""⟩)
          true "n")).appendAttempt
      = some ["", "Alice", "", "2024-11-30", "a@x.com", "Pending"] ∧
    (step ConvState.CONTEXT emptyDraft
        (Input.message "hi" (some ⟨some "Alice", some "2024-11-30", some "a@x.com", some ""⟩)
          true "n")).draft.Context = "" := by
  decide

/-- C2 amended: a message turn in a non-terminal state hands a record to
the sink and ends the conversation exactly when the three checked fields
Name, Timestamp and Contact_Info of the merged draft are non-empty; the
Context field is not part of the completeness check. -/
theorem completion_iff_checked_fields (s : ConvState) (d : Draft) (t nid : String)
    (er : Option ExtractionResult) (ok : Bool) (hs : s ≠ ConvState.END) :
    ((step s d (Input.message t er ok nid)).appendAttempt.isSome = true ∧
        (step s d (Input.message t er ok nid)).state = ConvState.END) ↔
      ((step s d (Input.message t er ok nid)).draft.Name ≠ ""
        ∧ (step s d (Input.message t er ok nid)).draft.Timestamp ≠ ""
        ∧ (step s d (Input.message t er ok nid)).draft.Contact_Info ≠ "") := by
  cases s with
  | END => exact absurd rfl hs
  | CONTEXT =>
      simp only [step]
      cases hM : missingFields (contextMerge d t (extractResult er)) with
      | nil =>
          rw [context_state_complete d t er ok hM]
          have hok := (missingFields_nil_iff (contextMerge d t (extractResult er))).mp hM
          simpa using hok
      | cons f fs =>
          rw [context_state_incomplete d t er ok f fs hM]
          have hnot : ¬ ((contextMerge d t (extractResult er)).Name ≠ ""
              ∧ (contextMerge d t (extractResult er)).Timestamp ≠ ""
              ∧ (contextMerge d t (extractResult er)).Contact_Info ≠ "") := by
            intro hc
            have := (missingFields_nil_iff _).mpr hc
            rw [hM] at this
            exact List.cons_ne_nil f fs this
          simpa using hnot
  | MISSING_INFO =>
      simp only [step]
      cases hM : missingFields (missingMerge d t) with
      | nil =>
          rw [missing_info_state_complete d t ok hM]
          have hok := (missingFields_nil_iff (missingMerge d t)).mp hM
          simpa using hok
      | cons f fs =>
          rw [missing_info_state_incomplete d t ok f fs hM]
          have hnot : ¬ ((missingMerge d t).Name ≠ ""
              ∧ (missingMerge d t).Timestamp ≠ ""
              ∧ (missingMerge d t).Contact_Info ≠ "") := by
            intro hc
            have := (missingFields_nil_iff _).mpr hc
            rw [hM] at this
            exact List.cons_ne_nil f fs this
          simpa using hnot

/-- C2 witness: a missing-info turn on a fully-filled draft attempts the
append and ends, and the three checked fields of its draft are non-empty. -/
theorem completion_iff_checked_fields_witness :
    ((step ConvState.MISSING_INFO ⟨"i", "Alice", "2024-11-30", "a@x.com", "ctx", "Pending"⟩
          (Input.message "x" none true "n")).appendAttempt.isSome = true ∧
        (step ConvState.MISSING_INFO ⟨"i", "Alice", "2024-11-30", "a@x.com", "ctx", "Pending"⟩
          (Input.message "x" none true "n")).state = ConvState.END) ↔
      ((step ConvState.MISSING_INFO ⟨"i", "Alice", "2024-11-30", "a@x.com", "ctx", "Pending"⟩
          (Input.message "x" none true "n")).draft.Name ≠ ""
        ∧ (step ConvState.MISSING_INFO ⟨"i", "Alice", "2024-11-30", "a@x.com", "ctx", "Pending"⟩
          (Input.message "x" none true "n")).draft.Timestamp ≠ ""
        ∧ (step ConvState.MISSING_INFO ⟨"i", "Alice", "2024-11-30", "a@x.com", "ctx", "Pending"⟩
          (Input.message "x" none true "n")).draft.Contact_Info ≠ "") :=
  completion_iff_checked_fields ConvState.MISSING_INFO
    ⟨"i", "Alice", "2024-11-30", "a@x.com", "ctx", "Pending"⟩ "x" "n" none true (by decide)

/-- C3.  Extraction-failure tolerance: a context turn whose extractor
call failed (modelled by the none oracle, i.e. the empty dict returned
by the except branch) is literally the same turn as one whose extraction
found zero fields; no exception propagates (the handler is a total
function), nothing is appended, the dialogue continues in MISSING_INFO
prompting for all three checked fields, and the draft keeps no less than
before: the three extracted keys stay empty as they were at the start of
the conversation (context_state is only ever reached with a fresh draft)
while Context falls back to the raw message.  In the MISSING_INFO state
the extractor is never called at all (missing_info_state takes no
extraction input), so repeated failures cannot touch collected fields. -/
theorem extraction_failure_tolerated (d : Draft) (msg : String) (ok : Bool) :
    context_state d msg none ok = context_state d msg (some emptyExtraction) ok ∧
    (context_state d msg none ok).state = ConvState.MISSING_INFO ∧
    (context_state d msg none ok).appendAttempt = none ∧
    (context_state d msg none ok).draft
      = { d with
          Context := msg
          Name := ""
          Timestamp := ""
          Contact_Info := ""
          FollowUpStatus := "Pending" } ∧
    (context_state d msg none ok).reply
      = some ("I couldn\x27t find the Name and Timestamp and Contact_Info"
          ++ " in your message. Could you please provide it?") := by
  refine ⟨rfl, ?_, ?_, ?_, ?_⟩ <;> rfl

/-- C4: the code never calls any date normalizer (dateparser is imported
at bot.py:3 but never used): when the extractor returns the unparseable
time expression "gibberish xyz" and the draft completes, the row handed
to the sink contains that raw string verbatim in the date column, not
the calendar date of any reference instant such as 2024-12-01. -/
theorem unparseable_timestamp_saved_raw :
    (step ConvState.CONTEXT emptyDraft
        (Input.message "met Alice"
          (some ⟨some "Alice", some "gibberish xyz", some "a@x.com", some "ctx"⟩)
          true "n")).appendAttempt
      = some ["", "Alice", "ctx", "gibberish xyz", "a@x.com", "Pending"] ∧
    ("gibberish xyz" : String) ≠ "2024-12-01" := by
  decide

/-- C5 counterexample: in a reachable missing-info turn with both Name
and Timestamp still missing after the fresh recomputation, the re-prompt
is "Please provide the Name", whose text does not even contain the
missing field name Timestamp — the prompt does not name the whole
missing set. -/
theorem reprompt_names_only_first_missing :
    (step
        (run ConvState.CONTEXT emptyDraft
          [Input.message "met someone" (some ⟨none, none, some "c@x", some "ctx"⟩) true "i"]).1
        (run ConvState.CONTEXT emptyDraft
          [Input.message "met someone" (some ⟨none, none, some "c@x", some "ctx"⟩) true "i"]).2
        (Input.message "no keys here" none true "j")).reply
      = some "Please provide the Name" ∧
    missingFields
      (step
        (run ConvState.CONTEXT emptyDraft
          [Input.message "met someone" (some ⟨none, none, some "c@x", some "ctx"⟩) true "i"]).1
        (run ConvState.CONTEXT emptyDraft
          [Input.message "met someone" (some ⟨none, none, some "c@x", some "ctx"⟩) true "i"]).2
        (Input.message "no keys here" none true "j")).draft
      = ["Name", "Timestamp"] ∧
    strIn "Timestamp" "Please provide the Name" = false := by
  decide

/-- C5 amended: prompts are recomputed fresh each turn from the merged
draft, but only the context-state prompt names the whole missing set
(joined with " and "); the missing-info re-prompt names exactly the
first element of the freshly recomputed missing list. -/
theorem prompt_content (d : Draft) (msg reply : String) (er : Option ExtractionResult)
    (ok : Bool) (f : String) (fs : List String) :
    (missingFields (contextMerge d msg (extractResult er)) = f :: fs →
      (context_state d msg er ok).reply
        = some ("I couldn\x27t find the " ++ String.intercalate " and " (f :: fs)
            ++ " in your message. Could you please provide it?")) ∧
    (missingFields (missingMerge d reply) = f :: fs →
      (missing_info_state d reply ok).reply = some ("Please provide the " ++ f)) := by
  constructor
  · intro h
    rw [context_state_incomplete d msg er ok f fs h]
  · intro h
    rw [missing_info_state_incomplete d reply ok f fs h]

/-- C5 witness: both prompt shapes at concrete inputs. -/
theorem prompt_content_witness :
    (context_state emptyDraft "hello there" none true).reply
      = some ("I couldn\x27t find the "
          ++ String.intercalate " and " ["Name", "Timestamp", "Contact_Info"]
          ++ " in your message. Could you please provide it?") ∧
    (missing_info_state emptyDraft "zzz" true).reply
      = some ("Please provide the " ++ "Name") :=
  ⟨(prompt_content emptyDraft "hello there" "zzz" none true "Name"
      ["Timestamp", "Contact_Info"]).1 (by decide),
   (prompt_content emptyDraft "hello there" "zzz" none true "Name"
      ["Timestamp", "Contact_Info"]).2 (by decide)⟩

/-- C6: the missing-info turn never invokes the extractor (the handler
has no extraction input at all, unlike context_state).  On a reachable
draft missing only Name, the reply "Bob" — which an extractor pass would
resolve — changes nothing and the bot re-prompts, because the literal
substring "Name" does not occur in it; while the reply "My Name is Bob"
gets assigned to Name verbatim, raw and unextracted. -/
theorem missing_turn_makes_no_extraction :
    (missing_info_state
        (run ConvState.CONTEXT emptyDraft
          [Input.message "met someone yesterday"
            (some ⟨none, some "2024-11-30", some "c@x", some "ctx"⟩) true "i"]).2
        "Bob" true).draft
      = (run ConvState.CONTEXT emptyDraft
          [Input.message "met someone yesterday"
            (some ⟨none, some "2024-11-30", some "c@x", some "ctx"⟩) true "i"]).2 ∧
    (missing_info_state
        (run ConvState.CONTEXT emptyDraft
          [Input.message "met someone yesterday"
            (some ⟨none, some "2024-11-30", some "c@x", some "ctx"⟩) true "i"]).2
        "Bob" true).state = ConvState.MISSING_INFO ∧
    (missing_info_state
        (run ConvState.CONTEXT emptyDraft
          [Input.message "met someone yesterday"
            (some ⟨none, some "2024-11-30", some "c@x", some "ctx"⟩) true "i"]).2
        "My Name is Bob" true).draft.Name = "My Name is Bob" := by
  decide

/-- C7 counterexample: cancel does not remove the draft — after a first
turn that stored Name = "Alice", a cancel, and a later message (which
the entry point start handles, putting the session back in CONTEXT with
a fresh ID), the stored draft still contains the cancelled value
"Alice"; nothing was ever deleted from user_data. -/
theorem cancel_leaves_values_in_store :
    (run ConvState.CONTEXT emptyDraft
        [Input.message "met Alice" (some ⟨some "Alice", none, none, some "ctx"⟩) true "id1",
         Input.cancelCmd,
         Input.message "hi again" none true "id2"]).2.Name = "Alice" ∧
    (run ConvState.CONTEXT emptyDraft
        [Input.message "met Alice" (some ⟨some "Alice", none, none, some "ctx"⟩) true "id1",
         Input.cancelCmd,
         Input.message "hi again" none true "id2"]).1 = ConvState.CONTEXT := by
  decide

/-- C7 amended: a cancel in any non-terminal state ends the conversation
with no record ever handed to the sink and the stored values untouched;
the leftover values are dead, however: the restarted conversation (the
later message routed to start, then the first context turn) yields a
state and draft that do not depend on the pre-cancel draft at all, every
field being overwritten before any use. -/
theorem cancel_no_record_and_fresh_restart (s : ConvState) (d1 d2 : Draft)
    (t msg nid nid2 : String) (er : Option ExtractionResult) (ok : Bool)
    (hs : s ≠ ConvState.END) :
    (step s d1 Input.cancelCmd).appendAttempt = none ∧
    (step s d1 Input.cancelCmd).state = ConvState.END ∧
    (step s d1 Input.cancelCmd).draft = d1 ∧
    run ConvState.END d1 [Input.message t none true nid, Input.message msg er ok nid2]
      = run ConvState.END d2 [Input.message t none true nid, Input.message msg er ok nid2] := by
  cases s with
  | END => exact absurd rfl hs
  | CONTEXT => exact ⟨rfl, rfl, rfl, rfl⟩
  | MISSING_INFO => exact ⟨rfl, rfl, rfl, rfl⟩

/-- C7 amended witness at concrete values: a cancel in MISSING_INFO
appends nothing, and restarting after it gives the same outcome as
restarting from a never-used draft. -/
theorem cancel_no_record_and_fresh_restart_witness :
    (step ConvState.MISSING_INFO ⟨"id0", "Alice", "", "", "ctx", "Pending"⟩
        Input.cancelCmd).appendAttempt = none ∧
    (step ConvState.MISSING_INFO ⟨"id0", "Alice", "", "", "ctx", "Pending"⟩
        Input.cancelCmd).state = ConvState.END ∧
    (step ConvState.MISSING_INFO ⟨"id0", "Alice", "", "", "ctx", "Pending"⟩
        Input.cancelCmd).draft = ⟨"id0", "Alice", "", "", "ctx", "Pending"⟩ ∧
    run ConvState.END ⟨"id0", "Alice", "", "", "ctx", "Pending"⟩
        [Input.message "hi" none true "id9", Input.message "met Bob" none true "idA"]
      = run ConvState.END emptyDraft
        [Input.message "hi" none true "id9", Input.message "met Bob" none true "idA"] :=
  cancel_no_record_and_fresh_restart ConvState.MISSING_INFO
    ⟨"id0", "Alice", "", "", "ctx", "Pending"⟩ emptyDraft
    "hi" "met Bob" "id9" "idA" none true (by decide)

/-- C8 counterexample: when the sink append fails on a completing turn,
the stored draft is not removed — it still holds all collected values
(Name = "Alice" among them) after the turn. -/
theorem sink_failure_keeps_draft :
    (step
        (run ConvState.CONTEXT emptyDraft
          [Input.message "met Alice" (some ⟨some "Alice", none, some "a@x.com", some "ctx"⟩)
            true "id"]).1
        (run ConvState.CONTEXT emptyDraft
          [Input.message "met Alice" (some ⟨some "Alice", none, some "a@x.com", some "ctx"⟩)
            true "id"]).2
        (Input.message "Timestamp: last tuesday" none false "j")).state = ConvState.END ∧
    (step
        (run ConvState.CONTEXT emptyDraft
          [Input.message "met Alice" (some ⟨some "Alice", none, some "a@x.com", some "ctx"⟩)
            true "id"]).1
        (run ConvState.CONTEXT emptyDraft
          [Input.message "met Alice" (some ⟨some "Alice", none, some "a@x.com", some "ctx"⟩)
            true "id"]).2
        (Input.message "Timestamp: last tuesday" none false "j")).appendOk = false ∧
    (step
        (run ConvState.CONTEXT emptyDraft
          [Input.message "met Alice" (some ⟨some "Alice", none, some "a@x.com", some "ctx"⟩)
            true "id"]).1
        (run ConvState.CONTEXT emptyDraft
          [Input.message "met Alice" (some ⟨some "Alice", none, some "a@x.com", some "ctx"⟩)
            true "id"]).2
        (Input.message "Timestamp: last tuesday" none false "j")).draft.Name = "Alice" := by
  decide

/-- C8 amended: on a completing turn whose sink append fails, the user
gets the error reply, which differs from the success confirmation; the
conversation still ends (it does not re-enter MISSING_INFO), exactly one
append was attempted for the turn, and the draft — not removed — keeps
the merged values. -/
theorem sink_failure_handling (d : Draft) (t msg : String) (er : Option ExtractionResult)
    (h : missingFields (missingMerge d t) = [])
    (h2 : missingFields (contextMerge d msg (extractResult er)) = []) :
    (missing_info_state d t false).reply = some sinkErrorMsg ∧
    (missing_info_state d t true).reply = some successMsg ∧
    sinkErrorMsg ≠ successMsg ∧
    (missing_info_state d t false).state = ConvState.END ∧
    (missing_info_state d t false).appendAttempt = some (rowOf (missingMerge d t)) ∧
    (missing_info_state d t false).appendOk = false ∧
    (missing_info_state d t false).draft = missingMerge d t ∧
    (context_state d msg er false).reply = some sinkErrorMsg ∧
    (context_state d msg er false).state = ConvState.END := by
  rw [missing_info_state_complete d t false h, missing_info_state_complete d t true h,
    context_state_complete d msg er false h2]
  refine ⟨rfl, rfl, by decide, rfl, rfl, rfl, rfl, rfl, rfl⟩

/-- C8 amended witness at a concrete completing turn. -/
theorem sink_failure_handling_witness :
    (missing_info_state ⟨"i", "Alice", "2024-11-30", "a@x.com", "ctx", "Pending"⟩
        "done" false).reply = some sinkErrorMsg ∧
    (missing_info_state ⟨"i", "Alice", "2024-11-30", "a@x.com", "ctx", "Pending"⟩
        "done" true).reply = some successMsg ∧
    sinkErrorMsg ≠ successMsg ∧
    (missing_info_state ⟨"i", "Alice", "2024-11-30", "a@x.com", "ctx", "Pending"⟩
        "done" false).state = ConvState.END ∧
    (missing_info_state ⟨"i", "Alice", "2024-11-30", "a@x.com", "ctx", "Pending"⟩
        "done" false).appendAttempt
      = some (rowOf (missingMerge ⟨"i", "Alice", "2024-11-30", "a@x.com", "ctx", "Pending"⟩
          "done")) ∧
    (missing_info_state ⟨"i", "Alice", "2024-11-30", "a@x.com", "ctx", "Pending"⟩
        "done" false).appendOk = false ∧
    (missing_info_state ⟨"i", "Alice", "2024-11-30", "a@x.com", "ctx", "Pending"⟩
        "done" false).draft
      = missingMerge ⟨"i", "Alice", "2024-11-30", "a@x.com", "ctx", "Pending"⟩ "done" ∧
    (context_state ⟨"i", "Alice", "2024-11-30", "a@x.com", "ctx", "Pending"⟩ "met Bob"
        (some ⟨some "Bob", some "friday", some "b@y.com", some "chat"⟩) false).reply
      = some sinkErrorMsg ∧
    (context_state ⟨"i", "Alice", "2024-11-30", "a@x.com", "ctx", "Pending"⟩ "met Bob"
        (some ⟨some "Bob", some "friday", some "b@y.com", some "chat"⟩) false).state
      = ConvState.END :=
  sink_failure_handling ⟨"i", "Alice", "2024-11-30", "a@x.com", "ctx", "Pending"⟩
    "done" "met Bob" (some ⟨some "Bob", some "friday", some "b@y.com", some "chat"⟩)
    (by decide) (by decide)

/-- C9.  Idempotent re-extraction: the merged draft a context turn
produces is a function of the message and the extraction result alone —
processing the same initial message with the same extraction result,
from an empty draft (indeed from any two prior drafts, since every field
is overwritten), yields identical Name, Timestamp, Contact_Info, Context
and Follow-Up Status values both times, whatever the sink did. -/
theorem idempotent_reextraction (d1 d2 : Draft) (msg : String)
    (er : Option ExtractionResult) (ok1 ok2 : Bool) :
    ((context_state d1 msg er ok1).draft.Name,
      (context_state d1 msg er ok1).draft.Timestamp,
      (context_state d1 msg er ok1).draft.Contact_Info,
      (context_state d1 msg er ok1).draft.Context,
      (context_state d1 msg er ok1).draft.FollowUpStatus)
    = ((context_state d2 msg er ok2).draft.Name,
      (context_state d2 msg er ok2).draft.Timestamp,
      (context_state d2 msg er ok2).draft.Contact_Info,
      (context_state d2 msg er ok2).draft.Context,
      (context_state d2 msg er ok2).draft.FollowUpStatus) := by
  rw [context_state_draft, context_state_draft]
  rfl

/-- C10.  The implicit fill rule of the missing-info turn: a required
field that is empty when the turn starts ends the turn holding the whole
reply text exactly when its literal key string occurs as a substring of
the reply, and stays empty otherwise (the handler performs no extraction
call — it has no extraction input). -/
theorem missing_fill_rule (d : Draft) (reply : String) (ok : Bool) (f : String)
    (hf : f ∈ requiredKeys) (h0 : getField d f = "") :
    getField (missing_info_state d reply ok).draft f
      = (if strIn f reply then reply else "") := by
  rw [missing_info_state_draft]
  simp only [requiredKeys, List.mem_cons, List.not_mem_nil, or_false] at hf
  rcases hf with rfl | rfl | rfl
  · rw [getField_Name] at h0
    rw [getField_Name, missingMerge_Name, if_pos h0]
  · rw [getField_Timestamp] at h0
    rw [getField_Timestamp, missingMerge_Timestamp, if_pos h0]
  · rw [getField_Contact] at h0
    rw [getField_Contact, missingMerge_Contact, if_pos h0]

/-- C10 witness: with Name empty, the reply "My Name is Bob" contains
the key "Name" and is assigned whole. -/
theorem missing_fill_rule_witness :
    getField (missing_info_state emptyDraft "My Name is Bob" true).draft "Name"
      = (if strIn "Name" "My Name is Bob" then "My Name is Bob" else "") :=
  missing_fill_rule emptyDraft "My Name is Bob" true "Name" (by decide) (by decide)

end Daedalus
